import Mathlib

/-!
# detectchain: JTAG chain detection

A shallow embedding of `main` of `detectchain.cpp` and of the C library
routines it calls (`getopt`, `strtol`, `strcasecmp`, `printf` with the
buffer of the standard-output stream), followed by theorems about the
orchestration of the chain walk, the selection of the transport and the
error paths.

C strings are lists of characters, a null pointer is `none`, a C `int` is an
`Int` that is wrapped to 32 bits wherever the program converts to `int`.
The collaborators that the program only calls (the adapter classes, `Jtag`,
`DeviceDB`) are parameters of the embedding; every call the program makes
on them is recorded, with what it returned, in the trace of the run.
-/

namespace Detectchain

/-- C string: the characters before the terminating NUL. -/
abbrev CStr := List Char

/-! ## C library -/

/-- Conversion of a `long` to `int` (wraps modulo `2^32`, two's complement). -/
def toInt32 (v : Int) : Int := (v + 2 ^ 31) % 2 ^ 32 - 2 ^ 31

/-- Clamp to the range of a 64-bit `long`, as `strtol` does on overflow. -/
def clampLong (v : Int) : Int :=
  if v < -(2 ^ 63) then -(2 ^ 63) else if 2 ^ 63 - 1 < v then 2 ^ 63 - 1 else v

/-- Value of a character as a digit (any radix up to 36), as in `strtol`. -/
def digitVal (c : Char) : Option Nat :=
  if '0' ≤ c ∧ c ≤ '9' then some (c.toNat - '0'.toNat)
  else if 'a' ≤ c ∧ c ≤ 'z' then some (c.toNat - 'a'.toNat + 10)
  else if 'A' ≤ c ∧ c ≤ 'Z' then some (c.toNat - 'A'.toNat + 10)
  else none

/-- Accumulate the longest prefix of digits valid in `base`. -/
def strtolDigits (base : Nat) : Nat → List Char → Nat
  | acc, [] => acc
  | acc, c :: cs =>
    match digitVal c with
    | some d => if d < base then strtolDigits base (acc * base + d) cs else acc
    | none => acc

/-- C `isspace` in the "C" locale. -/
def isspace (c : Char) : Bool :=
  c = ' ' || c = '\t' || c = '\n' || c = '\x0b' || c = '\x0c' || c = '\r'

/-- Whether the character is a digit of the given base. -/
def isDigitOf (base : Nat) (c : Char) : Bool :=
  match digitVal c with
  | some d => decide (d < base)
  | none => false

/-- Magnitude parsed by `strtol(s, NULL, 0)` after white space and sign:
`0x`/`0X` followed by a hexadecimal digit selects base 16, a leading `0`
base 8, anything else base 10; no digits gives 0. -/
def strtolMagnitude : List Char → Nat
  | '0' :: 'x' :: c :: cs => if isDigitOf 16 c then strtolDigits 16 0 (c :: cs) else 0
  | '0' :: 'X' :: c :: cs => if isDigitOf 16 c then strtolDigits 16 0 (c :: cs) else 0
  | '0' :: cs => strtolDigits 8 0 cs
  | cs => strtolDigits 10 0 cs

/-- The C library call `strtol(s, NULL, 0)` for a 64-bit `long`. -/
def strtol (s : CStr) : Int :=
  match s.dropWhile isspace with
  | '-' :: cs => clampLong (-(strtolMagnitude cs : Int))
  | '+' :: cs => clampLong (strtolMagnitude cs)
  | cs => clampLong (strtolMagnitude cs)

/-- C `tolower` in the "C" locale. -/
def tolower (c : Char) : Char :=
  if 'A' ≤ c ∧ c ≤ 'Z' then Char.ofNat (c.toNat + 32) else c

/-- The test `strcasecmp(a, b) == 0`. -/
def strcasecmpEq (a b : CStr) : Bool := a.map tolower == b.map tolower

/-- Hexadecimal digit character (lower case, as `%x` prints). -/
def hexChar (d : Nat) : Char :=
  if d < 10 then Char.ofNat ('0'.toNat + d) else Char.ofNat ('a'.toNat + (d - 10))

/-- Digits of `n` in the given base, most significant first, at most `fuel`
digits being produced; `acc` holds the digits already produced. -/
def digitsAux (base : Nat) : Nat → Nat → List Char → List Char
  | 0, _, acc => acc
  | fuel + 1, n, acc =>
    if n < base then hexChar n :: acc
    else digitsAux base fuel (n / base) (hexChar (n % base) :: acc)

/-- Digits of `n` in base `base` (`2 ≤ base`), most significant first. -/
def digits (base n : Nat) : List Char := digitsAux base (n + 1) n []

/-- Left padding with `pad` up to a minimal field width. -/
def padLeft (pad : Char) (width : Nat) (s : List Char) : List Char :=
  List.replicate (width - s.length) pad ++ s

/-- Output of printf for `%d`. -/
def fmtD (i : Int) : List Char :=
  if i < 0 then '-' :: digits 10 i.natAbs else digits 10 i.toNat

/-- Output of printf for `%08lx` with an `unsigned long` argument. -/
def fmt08lx (id : Nat) : List Char := padLeft '0' 8 (digits 16 id)

/-- Output of printf for `%04x` with an `int` argument, which `%x` reads as
`unsigned int`. -/
def fmt04x (v : Int) : List Char := padLeft '0' 4 (digits 16 (v % 2 ^ 32).toNat)

/-- Output of printf for `%s`; glibc prints `(null)` for a null pointer. -/
def fmtS (s : Option CStr) : List Char :=
  match s with
  | some cs => cs
  | none => "(null)".toList

/-- Output of printf for `%15s`: right justified in a field of 15. -/
def fmt15s (s : Option CStr) : List Char := padLeft ' ' 15 (fmtS s)

/-! ## getopt -/

/-- What one call of `getopt` hands back before it returns `-1`: an option
character that takes no argument (this includes `?`, returned for an
unknown option character or a missing argument), or an option character
together with `optarg`. -/
inductive GetoptRet where
  | flag (c : Char)
  | arg (c : Char) (optarg : CStr)
  deriving DecidableEq, Repr

/-- Look an option character up in an option string: `none` when it is not
an option character, otherwise whether it takes an argument. -/
def optLookup (c : Char) : List Char → Option Bool
  | [] => none
  | o :: ':' :: rest =>
    if o = c ∧ c ≠ ':' ∧ c ≠ ';' then some true else optLookup c rest
  | o :: rest =>
    if o = c ∧ c ≠ ':' ∧ c ≠ ';' then some false else optLookup c rest

/-- The returns of `getopt` while it scans the option characters of one
`argv` element (the text after its leading `-`), and the option character
that still waits for its argument in the next element, if any. -/
def getoptCluster (optstring : List Char) : List Char → List GetoptRet × Option Char
  | [] => ([], none)
  | c :: cs =>
    match optLookup c optstring with
    | none => (GetoptRet.flag '?' :: (getoptCluster optstring cs).1, (getoptCluster optstring cs).2)
    | some false => (GetoptRet.flag c :: (getoptCluster optstring cs).1, (getoptCluster optstring cs).2)
    | some true =>
      match cs with
      | [] => ([], some c)
      | _ :: _ => ([GetoptRet.arg c cs], none)

/-- The successive returns of `getopt(argc, args, optstring)` up to its
return of `-1`, and the `argv` elements from `optind` on at that moment.
`args` are the elements after the program name. `waiting` is an option
character whose argument is the next element; `skipped` are the non-option
elements passed over (glibc permutes them behind the options unless
`posix` is set, in which case the scan stops at the first of them). The
line that `getopt` itself prints to standard error when it returns `?` for
an unknown option character or a missing argument is left out. -/
def getoptReturns (optstring : List Char) (posix : Bool) :
    Option Char → List CStr → List CStr → List GetoptRet × List CStr
  | some _, skipped, [] => ([GetoptRet.flag '?'], skipped)
  | some c, skipped, a :: as =>
    (GetoptRet.arg c a :: (getoptReturns optstring posix none skipped as).1,
      (getoptReturns optstring posix none skipped as).2)
  | none, skipped, [] => ([], skipped)
  | none, skipped, a :: as =>
    if a = "--".toList then ([], skipped ++ as)
    else
      match a with
      | '-' :: c :: cs =>
        ((getoptCluster optstring (c :: cs)).1 ++
            (getoptReturns optstring posix (getoptCluster optstring (c :: cs)).2 skipped as).1,
          (getoptReturns optstring posix (getoptCluster optstring (c :: cs)).2 skipped as).2)
      | _ =>
        if posix then ([], skipped ++ a :: as)
        else getoptReturns optstring posix none (skipped ++ [a]) as

/-! ## The program -/

/-- Constants of the adapter headers (`ioftdi.h`, `iofx2.h`, `ioxpc.h`),
which the program only names. -/
structure Consts where
  FTDI_NO_EN : Int
  FTDI_IKDA : Int
  FTDI_OLIMEX : Int
  FTDI_AMONTEC : Int
  XPC_INTERNAL : Int
  USRP_VENDOR : Int
  USRP_DEVICE : Int
  XPC_VENDOR : Int
  XPC_DEVICE : Int

/-- The local variables of `main` that the option loop sets. -/
structure Vars where
  verbose : Bool
  cable : CStr
  dev : Option CStr
  vendor : Int
  product : Int
  desc : Option CStr
  serial : Option CStr
  subtype : Int
  deriving DecidableEq, Repr

/-- The initialisers at the head of `main`. -/
def Vars.init (K : Consts) : Vars :=
  { verbose := false, cable := "pp".toList, dev := none, vendor := 0, product := 0,
    desc := none, serial := none, subtype := K.FTDI_NO_EN }

/-- The option string handed to `getopt`. -/
def optstring : List Char := "?hvc:d:V:P:D:S:t:".toList

/-- The `switch` on the return of `getopt`; `none` stands for the call of
`usage()`, which does not return. -/
def handleOption (K : Consts) (v : Vars) : GetoptRet → Option Vars
  | GetoptRet.flag 'v' => some { v with verbose := true }
  | GetoptRet.arg 'c' optarg => some { v with cable := optarg }
  | GetoptRet.arg 'd' optarg => some { v with dev := some optarg }
  | GetoptRet.arg 'V' optarg => some { v with vendor := toInt32 (strtol optarg) }
  | GetoptRet.arg 'P' optarg => some { v with product := toInt32 (strtol optarg) }
  | GetoptRet.arg 'D' optarg => some { v with desc := some optarg }
  | GetoptRet.arg 'S' optarg => some { v with serial := some optarg }
  | GetoptRet.arg 't' optarg =>
    if strcasecmpEq optarg "ikda".toList then some { v with subtype := K.FTDI_IKDA }
    else if strcasecmpEq optarg "olimex".toList then some { v with subtype := K.FTDI_OLIMEX }
    else if strcasecmpEq optarg "amontec".toList then some { v with subtype := K.FTDI_AMONTEC }
    else if strcasecmpEq optarg "int".toList then some { v with subtype := K.XPC_INTERNAL }
    else none
  | _ => none

/-- The `while(true)` loop over the returns of `getopt`. -/
def optionLoop (K : Consts) : Vars → List GetoptRet → Option Vars
  | v, [] => some v
  | v, r :: rs =>
    match handleOption K v r with
    | none => none
    | some v1 => optionLoop K v1 rs

/-- Lines 81 to 140 of `main`: the option loop followed by the test
`argc != 0` on what is left behind the options; `none` stands for
`usage()`. -/
def parseArgs (K : Consts) (posix : Bool) (args : List CStr) : Option Vars :=
  match optionLoop K (Vars.init K) (getoptReturns optstring posix none [] args).1 with
  | none => none
  | some v => if (getoptReturns optstring posix none [] args).2 = [] then some v else none

/-- A constructor call `new IO...(...)` of `main` with its arguments. -/
inductive Adapter where
  | IOParport (dev : Option CStr)
  | IOFtdi (vendor product : Int) (desc serial : Option CStr) (subtype : Int)
  | IOFX2 (vendor product : Int) (desc serial : Option CStr)
  | IOXPC (vendor product : Int) (desc serial : Option CStr) (subtype : Int)
  deriving DecidableEq, Repr

/-- Lines 144 to 165 of `main`: the chain of `strcmp` tests on `cable`. The
result is the constructor call together with the variables as the branch
leaves them (the `fx2` and `xpc` branches assign `vendor` and `product`);
`none` stands for `usage()`. -/
def selectTransport (K : Consts) (v : Vars) : Option (Vars × Adapter) :=
  if v.cable = "pp".toList then some (v, Adapter.IOParport v.dev)
  else if v.cable = "ftdi".toList then
    some (v, Adapter.IOFtdi v.vendor v.product v.desc v.serial v.subtype)
  else if v.cable = "fx2".toList then
    let v1 := if v.vendor = 0 then { v with vendor := K.USRP_VENDOR } else v
    let v2 := if v1.product = 0 then { v1 with product := K.USRP_DEVICE } else v1
    some (v2, Adapter.IOFX2 v2.vendor v2.product v2.desc v2.serial)
  else if v.cable = "xpc".toList then
    let v1 := if v.vendor = 0 then { v with vendor := K.XPC_VENDOR } else v
    let v2 := if v1.product = 0 then { v1 with product := K.XPC_DEVICE } else v1
    some (v2, Adapter.IOXPC v2.vendor v2.product v2.desc v2.serial v2.subtype)
  else none

/-- A call the program makes on one of its collaborators, with what the
call returned; a call that failed (threw) has no return value. -/
inductive Event where
  | construct (a : Adapter) (ok : Bool)
  | setVerbose (v : Bool)
  | getChain (ret : Option Int)
  | getFile (ret : CStr)
  | getDeviceID (i : Int) (ret : Option Nat)
  | loadDevice (id : Nat) (ret : Int)
  | setDeviceIRLength (i : Int) (len : Int) (ok : Bool)
  | getDeviceDescription (idx : Int) (ret : Option CStr)
  deriving DecidableEq, Repr

/-- Buffering of a stdio stream (`_IONBF`, `_IOLBF`, `_IOFBF`): the C
library makes standard output line buffered when it is a terminal and
fully buffered otherwise (a pipe, a file). -/
inductive Buffering where
  | unbuffered
  | line
  | full
  deriving DecidableEq, Repr

/-- The part of the text printed to a stdio stream that the stream has
written to its file when the program is aborted. `buf` is the content of
the buffer, `size` its size. A character goes to the file at once when the
stream is unbuffered; otherwise it goes into the buffer, which is written
to the file when a character arrives and the buffer is full and, for a
line-buffered stream, after each newline. What is in the buffer at the end
is not written: `abort()` does not flush. -/
def stdioWritten (mode : Buffering) (size : Nat) : List Char → List Char → List Char
  | _, [] => []
  | buf, c :: cs =>
    match mode with
    | Buffering.unbuffered => buf ++ c :: stdioWritten mode size [] cs
    | Buffering.line =>
      if c = '\n' then buf ++ c :: stdioWritten mode size [] cs
      else if buf.length < size then stdioWritten mode size (buf ++ [c]) cs
      else buf ++ stdioWritten mode size [c] cs
    | Buffering.full =>
      if buf.length < size then stdioWritten mode size (buf ++ [c]) cs
      else buf ++ stdioWritten mode size [c] cs

/-- The collaborators of `main`, whose sources the program only includes:
the adapter constructors (`none`: the constructor throws `io_exception`;
the arguments are passed by value, so the call leaves the variables of
`main` as they are), the setter `setVerbose`, the chain walker `Jtag` over
a state `σ` that starts as the adapter was constructed (`none`: the
operation throws, which is the only failure `main` can notice, since it
looks at no status), and the database `DeviceDB` over a state `δ`, `db`
being the state that `DeviceDB db(0)` constructs. `posixlyCorrect` tells
whether `getopt` stops at the first non-option; `stdoutBuffering` and
`stdoutBufsize` are the buffering mode and the buffer size that the C
library has given the standard-output stream. -/
structure Env (σ δ : Type) where
  construct : Adapter → Option σ
  setVerbose : σ → Bool → σ
  getChain : σ → Option (Int × σ)
  getDeviceID : σ → Int → Option (Nat × σ)
  setDeviceIRLength : σ → Int → Int → Option σ
  db : δ
  getFile : δ → CStr
  loadDevice : δ → Nat → Int × δ
  getDeviceDescription : δ → Int → Option CStr
  posixlyCorrect : Bool
  stdoutBuffering : Buffering
  stdoutBufsize : Nat

/-- How a run ends: `exit(status)` or `return status` from `main`, or an
exception that nothing catches (`std::terminate`). -/
inductive Outcome where
  | exit (status : Int)
  | terminate
  deriving DecidableEq, Repr

/-- What a run of the program did: how it ended, what standard output has
received when it is over, what `main` and `usage` have printed to standard
error (which is not buffered; the diagnostics that the C and C++ run-time
libraries print on their own, in `getopt` and in `std::terminate`, are not
part of it), and the calls it made. -/
structure Run where
  outcome : Outcome
  out : List Char
  err : List Char
  trace : List Event
  deriving DecidableEq, Repr

/-- What a stretch of the program did: how it ended, the text it handed to
`printf` for the standard-output stream, the text it printed to standard
error, and the calls it made. -/
structure Steps where
  outcome : Outcome
  printed : List Char
  err : List Char
  trace : List Event
  deriving DecidableEq, Repr

/-- A stretch that first printed and called what is given, then went on as
`r`. -/
def Steps.after (printed err : List Char) (trace : List Event) (r : Steps) : Steps :=
  { outcome := r.outcome, printed := printed ++ r.printed, err := err ++ r.err,
    trace := trace ++ r.trace }

/-- What standard output has received of the text printed when the program
is over: `exit`, and so the return from `main`, flushes the stream, so that
all of the text has arrived; an exception that nothing catches ends in
`abort()`, which does not flush, so that what the buffer still held is
lost. -/
def stdoutAt (mode : Buffering) (size : Nat) (o : Outcome) (printed : List Char) : List Char :=
  match o with
  | Outcome.exit _ => printed
  | Outcome.terminate => stdioWritten mode size [] printed

/-- The run that ends with the given stretch. -/
def Steps.finish (mode : Buffering) (size : Nat) (r : Steps) : Run :=
  { outcome := r.outcome, out := stdoutAt mode size r.outcome r.printed, err := r.err,
    trace := r.trace }

/-- The text that `usage()` prints. -/
def usageText : List Char :=
  ("\nUsage: detectchain [-c cable_type] [-v]\n" ++
   "   -v\tverbose output\n\n" ++
   "   Supported cable types: pp, ftdi, fx2, xpc\n" ++
   "   \tOptional pp arguments:\n" ++
   "   \t\t[-d device] (e.g. /dev/parport0)\n" ++
   "   \tOptional fx2/ftdi/xpc arguments:\n" ++
   "   \t\t[-V vendor]      (idVendor)\n" ++
   "   \t\t[-P product]     (idProduct)\n" ++
   "   \t\t[-D description] (Product string)\n" ++
   "   \t\t[-s serial]      (SerialNumber string)\n" ++
   "   \tOptional ftdi arguments:\n" ++
   "   \t\t[-t subtype]\n" ++
   "   \t\t\t(NONE\t\t(0x0403:0x0610) or\n" ++
   "   \t\t\t IKDA\t\t(0x0403:0x0610, EN_N on ACBUS2) or\n" ++
   "   \t\t\t OLIMEX\t\t(0x15b1:0x0003, JTAG_EN_N on ADBUS4, LED on ACBUS3))\n" ++
   "   \t\t\t AMONTEC\t(0x0403:0xcff8, JTAG_EN_N on ADBUS4)\n" ++
   "   \tOptional xpc arguments:\n" ++
   "   \t\t[-t subtype] (NONE or INT  (Internal Chain on XPC, doesn\x27t work for now on DLC10))\n").toList

/-- The function `usage()`: print the text to standard error, `exit(255)`. -/
def usage : Run :=
  { outcome := Outcome.exit 255, out := [], err := usageText, trace := [] }

/-- The text of `printf("JTAG loc.: %d\tIDCODE: 0x%08lx\t", i, id)`. -/
def locText (i : Int) (id : Nat) : List Char :=
  "JTAG loc.: ".toList ++ fmtD i ++ "\tIDCODE: 0x".toList ++ fmt08lx id ++ "\t".toList

/-- The text of `printf("Desc: %15s\tIR length: %d\n", desc, length)`. -/
def descText (desc : Option CStr) (length : Int) : List Char :=
  "Desc: ".toList ++ fmt15s desc ++ "\tIR length: ".toList ++ fmtD length ++ "\n".toList

/-- The text of `printf("not found in \x27%s\x27.\n", file)`. -/
def notFoundText (file : CStr) : List Char :=
  "not found in \x27".toList ++ file ++ "\x27.\n".toList

/-- The loop `for(int i=0; i<num; i++)` of `main` with `n` iterations left
(`n = num - i`), followed by `return 0`. An operation that throws ends
the stretch: the loop lies outside the `try` block. -/
def walk {σ δ : Type} (E : Env σ δ) : Nat → Int → Int → σ → δ → Steps
  | 0, _, _, _, _ => { outcome := Outcome.exit 0, printed := [], err := [], trace := [] }
  | n + 1, i, dblast, s, d =>
    match E.getDeviceID s i with
    | none =>
      { outcome := Outcome.terminate, printed := [], err := [],
        trace := [Event.getDeviceID i none] }
    | some (id, s1) =>
      if 0 < (E.loadDevice d id).1 then
        match E.setDeviceIRLength s1 i (E.loadDevice d id).1 with
        | none =>
          { outcome := Outcome.terminate, printed := locText i id, err := [],
            trace := [Event.getDeviceID i (some id),
                      Event.loadDevice id (E.loadDevice d id).1,
                      Event.setDeviceIRLength i (E.loadDevice d id).1 false] }
        | some s2 =>
          Steps.after
            (locText i id ++
              descText (E.getDeviceDescription (E.loadDevice d id).2 dblast) (E.loadDevice d id).1)
            []
            [Event.getDeviceID i (some id),
             Event.loadDevice id (E.loadDevice d id).1,
             Event.setDeviceIRLength i (E.loadDevice d id).1 true,
             Event.getDeviceDescription dblast
               (E.getDeviceDescription (E.loadDevice d id).2 dblast)]
            (walk E n (i + 1) (dblast + 1) s2 (E.loadDevice d id).2)
      else
        Steps.after
          (locText i id ++ notFoundText (E.getFile (E.loadDevice d id).2))
          []
          [Event.getDeviceID i (some id),
           Event.loadDevice id (E.loadDevice d id).1,
           Event.getFile (E.getFile (E.loadDevice d id).2)]
          (walk E n (i + 1) dblast s1 (E.loadDevice d id).2)

/-- Lines 180 to 201 of `main`: what follows the construction of the
adapter, on the state `s` of the chain walker built on it. -/
def detect {σ δ : Type} (E : Env σ δ) (verbose : Bool) (s : σ) : Steps :=
  match E.getChain s with
  | none =>
    { outcome := Outcome.terminate, printed := [], err := [], trace := [Event.getChain none] }
  | some (num, s1) =>
    Steps.after []
      (if verbose then "Using ".toList ++ E.getFile E.db ++ "\n".toList else [])
      (Event.getChain (some num) ::
        (if verbose then [Event.getFile (E.getFile E.db)] else []))
      (walk E num.toNat 0 0 s1 E.db)

/-- The text of
`fprintf(stderr, "Could not access USB device %04x:%04x.\n", vendor, product)`. -/
def accessText (vendor product : Int) : List Char :=
  "Could not access USB device ".toList ++ fmt04x vendor ++ ":".toList ++
    fmt04x product ++ ".\n".toList

/-- The function `main`, up to the end of the process; `args` are the
command-line arguments after the program name. -/
def main {σ δ : Type} (K : Consts) (E : Env σ δ) (args : List CStr) : Run :=
  match parseArgs K E.posixlyCorrect args with
  | none => usage
  | some v =>
    match selectTransport K v with
    | none => usage
    | some (v1, a) =>
      match E.construct a with
      | none =>
        { outcome := Outcome.exit 1, out := [],
          err := if v1.cable ≠ "pp".toList then accessText v1.vendor v1.product else [],
          trace := [Event.construct a false] }
      | some s =>
        Steps.finish E.stdoutBuffering E.stdoutBufsize
          (Steps.after [] [] [Event.construct a true, Event.setVerbose v1.verbose]
            (detect E v1.verbose (E.setVerbose s v1.verbose)))

/-! ## Vocabulary of the statements -/

/-- What the walk found at one position: the identification code read, the
length `loadDevice` returned for it, and what `getDeviceDescription` (when
the length is positive) or `getFile` (when it is not) returned. -/
structure Position where
  id : Nat
  length : Int
  desc : Option CStr
  file : CStr

/-- The calls of one completed iteration of the loop, for position `i`. -/
def Position.events (i dblast : Int) (p : Position) : List Event :=
  if 0 < p.length then
    [Event.getDeviceID i (some p.id), Event.loadDevice p.id p.length,
     Event.setDeviceIRLength i p.length true, Event.getDeviceDescription dblast p.desc]
  else
    [Event.getDeviceID i (some p.id), Event.loadDevice p.id p.length, Event.getFile p.file]

/-- The line of standard output for position `i`. -/
def Position.line (i : Int) (p : Position) : List Char :=
  locText i p.id ++ (if 0 < p.length then descText p.desc p.length else notFoundText p.file)

/-- The calls of completed iterations for the positions from `i` on. -/
def walkEvents : Int → Int → List Position → List Event
  | _, _, [] => []
  | i, dblast, p :: ps =>
    p.events i dblast ++ walkEvents (i + 1) (if 0 < p.length then dblast + 1 else dblast) ps

/-- The lines of completed iterations for the positions from `i` on. -/
def walkLines : Int → List Position → List Char
  | _, [] => []
  | i, p :: ps => p.line i ++ walkLines (i + 1) ps

/-- How the loop ends: all iterations done, or a failed read of the
identification code, or a failed commit of the length. -/
inductive WalkEnd where
  | done
  | readFailed
  | commitFailed (id : Nat) (length : Int)

/-- The end of the run that goes with the end of the loop. -/
def WalkEnd.outcome : WalkEnd → Outcome
  | WalkEnd.done => Outcome.exit 0
  | _ => Outcome.terminate

/-- What the unfinished iteration for position `k` handed to `printf`. -/
def WalkEnd.out (k : Int) : WalkEnd → List Char
  | WalkEnd.commitFailed id _ => locText k id
  | _ => []

/-- The calls of the unfinished iteration for position `k`. -/
def WalkEnd.events (k : Int) : WalkEnd → List Event
  | WalkEnd.done => []
  | WalkEnd.readFailed => [Event.getDeviceID k none]
  | WalkEnd.commitFailed id length =>
    [Event.getDeviceID k (some id), Event.loadDevice id length,
     Event.setDeviceIRLength k length false]

/-- How many of `n` iterations are complete at the given end. -/
def WalkEnd.Fits (n done : Nat) : WalkEnd → Prop
  | WalkEnd.done => done = n
  | WalkEnd.readFailed => done < n
  | WalkEnd.commitFailed _ length => done < n ∧ 0 < length

/-- The position an operation of the chain walk is issued for. -/
def Event.position : Event → Option Int
  | Event.getDeviceID i _ => some i
  | Event.setDeviceIRLength i _ _ => some i
  | _ => none

/-- A call on the chain walker (`Jtag`). -/
def Event.isJtag : Event → Bool
  | Event.getChain _ => true
  | Event.getDeviceID _ _ => true
  | Event.setDeviceIRLength _ _ _ => true
  | _ => false

/-- A chain-walk operation that failed. -/
def Event.failed : Event → Bool
  | Event.getChain none => true
  | Event.getDeviceID _ none => true
  | Event.setDeviceIRLength _ _ false => true
  | _ => false

/-- The position of a `getDeviceID` call. -/
def Event.readIndex : Event → Option Int
  | Event.getDeviceID i _ => some i
  | _ => none

/-- A `setDeviceIRLength` call. -/
def Event.isCommit : Event → Bool
  | Event.setDeviceIRLength _ _ _ => true
  | _ => false

/-- A `getChain` call. -/
def Event.isGetChain : Event → Bool
  | Event.getChain _ => true
  | _ => false

/-- Every `setDeviceIRLength` call of the sequence is for the position of
the `getDeviceID` call that precedes it most closely, and no second commit
follows before the next read. `last` is the position read last and not yet
committed. -/
def commitsFollowReads : Option Int → List Event → Bool
  | _, [] => true
  | _, Event.getDeviceID i _ :: t => commitsFollowReads (some i) t
  | last, Event.setDeviceIRLength i _ _ :: t => decide (last = some i) && commitsFollowReads none t
  | last, _ :: t => commitsFollowReads last t

/-- The calls that precede the loop in a run that reaches it. -/
def setupEvents (a : Adapter) (verbose : Bool) (num : Int) (file : CStr) : List Event :=
  [Event.construct a true, Event.setVerbose verbose, Event.getChain (some num)] ++
    (if verbose then [Event.getFile file] else [])

/-- The text of `fprintf(stderr, "Using %s\n", file)` in verbose mode. -/
def usingText (verbose : Bool) (file : CStr) : List Char :=
  if verbose then "Using ".toList ++ file ++ "\n".toList else []

/-- The vendor and product identifiers handed to a constructor; the
parallel-port adapter receives none. -/
def Adapter.ids : Adapter → Option (Int × Int)
  | Adapter.IOParport _ => none
  | Adapter.IOFtdi vendor product _ _ _ => some (vendor, product)
  | Adapter.IOFX2 vendor product _ _ => some (vendor, product)
  | Adapter.IOXPC vendor product _ _ _ => some (vendor, product)

/-- The subtype handed to a constructor, for those that take one. -/
def Adapter.subtype : Adapter → Option Int
  | Adapter.IOFtdi _ _ _ _ subtype => some subtype
  | Adapter.IOXPC _ _ _ _ subtype => some subtype
  | _ => none

/-! ## The database -/

/-- Modelled from the spec: a `DeviceMatch` of the Identity Database, a
description string and an instruction-register bit length. -/
structure DeviceMatch where
  description : CStr
  irLength : Nat

/-- Modelled from the spec: the Identity Database, class `DeviceDB`, whose
sources (`devicedb.h`, `devicedb.cpp`) are not among the source files.
`resolve` is the lookup `resolve(identificationCode) -> Option<DeviceMatch>`
and `file` the human-readable source identifier. `devices` are the matches
handed out so far, in this order: the index that `main` passes to
`getDeviceDescription` counts them. -/
structure DeviceDB where
  file : CStr
  resolve : Nat → Option DeviceMatch
  devices : List DeviceMatch

/-- Modelled from the spec: `DeviceDB::loadDevice`, the lookup of a code;
it returns the instruction-register length of the match, which it keeps as
the next device, or 0 when the code is unresolved. -/
def DeviceDB.loadDevice (db : DeviceDB) (id : Nat) : Int × DeviceDB :=
  match db.resolve id with
  | some m => ((m.irLength : Int), { db with devices := db.devices ++ [m] })
  | none => (0, db)

/-- Modelled from the spec: `DeviceDB::getDeviceDescription`, the
description of the match handed out as number `idx`; a null pointer when
there is none. -/
def DeviceDB.getDeviceDescription (db : DeviceDB) (idx : Int) : Option CStr :=
  if idx < 0 then none else (db.devices.get? idx.toNat).map DeviceMatch.description

/-- Modelled from the spec: `DeviceDB::getFile`, the source identifier. -/
def DeviceDB.getFile (db : DeviceDB) : CStr := db.file

/-- Sample values for the constants of the adapter headers. -/
def sampleConsts : Consts :=
  { FTDI_NO_EN := 0, FTDI_IKDA := 1, FTDI_OLIMEX := 2, FTDI_AMONTEC := 3, XPC_INTERNAL := 1,
    USRP_VENDOR := 0xfffe, USRP_DEVICE := 0x0018, XPC_VENDOR := 0x03fd, XPC_DEVICE := 0x0008 }

/-- A sample environment: the adapter opens or not, the chain holds the
devices with the given identification codes, reads and commits fail at the
positions selected, and the database knows the one code `0x149511C3`;
standard output is a pipe, fully buffered with a buffer of 4096. -/
def sampleEnv (opens : Bool) (codes : List Nat) (readFails commitFails : Int → Bool) :
    Env Unit Unit :=
  { construct := fun _ => if opens then some () else none
    setVerbose := fun s _ => s
    getChain := fun s => some ((codes.length : Int), s)
    getDeviceID := fun s i => if readFails i then none else some (codes.getD i.toNat 0, s)
    setDeviceIRLength := fun s i _ => if commitFails i then none else some s
    db := ()
    getFile := fun _ => "devlist.txt".toList
    loadDevice := fun d id => (if id = 0x149511C3 then 6 else 0, d)
    getDeviceDescription := fun _ _ => some "EXAMPLE-FPGA".toList
    posixlyCorrect := false
    stdoutBuffering := Buffering.full
    stdoutBufsize := 4096 }

end Detectchain

namespace Detectchain

theorem walk_spec {σ δ : Type} (E : Env σ δ) :
    ∀ (n : Nat) (i dblast : Int) (s : σ) (d : δ),
      ∃ (ps : List Position) (e : WalkEnd),
        walk E n i dblast s d =
          { outcome := e.outcome,
            printed := walkLines i ps ++ e.out (i + ps.length),
            err := [],
            trace := walkEvents i dblast ps ++ e.events (i + ps.length) } ∧
        e.Fits n ps.length := by
  intro n
  induction n with
  | zero =>
    intro i dblast s d
    exact ⟨[], WalkEnd.done, by simp [walk, walkLines, walkEvents, WalkEnd.outcome, WalkEnd.out, WalkEnd.events], rfl⟩
  | succ n ih =>
    intro i dblast s d
    cases hid : E.getDeviceID s i with
    | none =>
      exact ⟨[], WalkEnd.readFailed,
        by simp [walk, hid, walkLines, walkEvents, WalkEnd.outcome, WalkEnd.out, WalkEnd.events],
        Nat.succ_pos n⟩
    | some r =>
      obtain ⟨id, s1⟩ := r
      by_cases hl : 0 < (E.loadDevice d id).1
      · cases hc : E.setDeviceIRLength s1 i (E.loadDevice d id).1 with
        | none =>
          exact ⟨[], WalkEnd.commitFailed id (E.loadDevice d id).1,
            by simp [walk, hid, hl, hc, walkLines, walkEvents, WalkEnd.outcome, WalkEnd.out,
              WalkEnd.events],
            Nat.succ_pos n, hl⟩
        | some s2 =>
          obtain ⟨ps, e, hw, hf⟩ := ih (i + 1) (dblast + 1) s2 (E.loadDevice d id).2
          refine ⟨⟨id, (E.loadDevice d id).1,
            E.getDeviceDescription (E.loadDevice d id).2 dblast, []⟩ :: ps, e, ?_, ?_⟩
          · simp [walk, hid, hl, hc, hw, Steps.after, walkLines, walkEvents, Position.line,
              Position.events, add_assoc, add_comm (1 : Int)]
          · cases e <;> simp_all [WalkEnd.Fits]
      · obtain ⟨ps, e, hw, hf⟩ := ih (i + 1) dblast s1 (E.loadDevice d id).2
        refine ⟨⟨id, (E.loadDevice d id).1, none, E.getFile (E.loadDevice d id).2⟩ :: ps, e, ?_, ?_⟩
        · simp [walk, hid, hl, hw, Steps.after, walkLines, walkEvents, Position.line,
            Position.events, add_assoc, add_comm (1 : Int)]
        · cases e <;> simp_all [WalkEnd.Fits]

/-- The shapes a run of `main` can have. -/
theorem main_cases {σ δ : Type} (K : Consts) (E : Env σ δ) (args : List CStr) :
    (main K E args = usage ∧
      ∀ v, parseArgs K E.posixlyCorrect args = some v → selectTransport K v = none) ∨
    ∃ v v1 a, parseArgs K E.posixlyCorrect args = some v ∧ selectTransport K v = some (v1, a) ∧
      (main K E args =
          { outcome := Outcome.exit 1, out := [],
            err := if v1.cable ≠ "pp".toList then accessText v1.vendor v1.product else [],
            trace := [Event.construct a false] } ∨
        main K E args =
          { outcome := Outcome.terminate, out := [], err := [],
            trace := [Event.construct a true, Event.setVerbose v1.verbose,
              Event.getChain none] } ∨
        ∃ (num : Int) (ps : List Position) (e : WalkEnd),
          main K E args =
            { outcome := e.outcome,
              out := stdoutAt E.stdoutBuffering E.stdoutBufsize e.outcome
                (walkLines 0 ps ++ e.out ps.length),
              err := usingText v1.verbose (E.getFile E.db),
              trace := setupEvents a v1.verbose num (E.getFile E.db) ++
                (walkEvents 0 0 ps ++ e.events ps.length) } ∧
          e.Fits num.toNat ps.length) := by
  cases hp : parseArgs K E.posixlyCorrect args with
  | none => left; simp [main, hp]
  | some v =>
    cases hs : selectTransport K v with
    | none => left; simp [main, hp, hs]
    | some r =>
      obtain ⟨v1, a⟩ := r
      right
      refine ⟨v, v1, a, rfl, hs, ?_⟩
      cases hc : E.construct a with
      | none => left; simp [main, hp, hs, hc]
      | some s =>
        right
        cases hg : E.getChain (E.setVerbose s v1.verbose) with
        | none =>
          left
          simp [main, hp, hs, hc, detect, hg, Steps.after, Steps.finish, stdoutAt, stdioWritten]
        | some r =>
          obtain ⟨num, s1⟩ := r
          right
          obtain ⟨ps, e, hw, hf⟩ := walk_spec E num.toNat 0 0 s1 E.db
          refine ⟨num, ps, e, ?_, hf⟩
          simp only [main, hp, hs, hc, detect, hg, hw, Steps.after, Steps.finish, setupEvents,
            usingText]
          cases v1.verbose <;> simp

/-! ### The calls of completed iterations -/

theorem mem_position_events {i dblast : Int} {p : Position} {e : Event}
    (h : e ∈ p.events i dblast) :
    e.isGetChain = false ∧ e.failed = false ∧ (∀ j, e.position = some j → j = i) ∧
      (∀ a ok, e ≠ Event.construct a ok) := by
  unfold Position.events at h
  split at h
  · simp only [List.mem_cons, List.mem_singleton, List.not_mem_nil, or_false] at h
    rcases h with h | h | h | h <;> subst h <;>
      simp [Event.isGetChain, Event.failed, Event.position]
  · simp only [List.mem_cons, List.mem_singleton, List.not_mem_nil, or_false] at h
    rcases h with h | h | h <;> subst h <;>
      simp [Event.isGetChain, Event.failed, Event.position]

theorem mem_walkEvents {e : Event} :
    ∀ (ps : List Position) (i dblast : Int), e ∈ walkEvents i dblast ps →
      e.isGetChain = false ∧ e.failed = false ∧
        (∀ j, e.position = some j → i ≤ j ∧ j < i + ps.length) ∧
        (∀ a ok, e ≠ Event.construct a ok) := by
  intro ps
  induction ps with
  | nil => intro i dblast h; simp [walkEvents] at h
  | cons p ps ih =>
    intro i dblast h
    simp only [walkEvents, List.mem_append] at h
    rcases h with h | h
    · obtain ⟨h1, h2, h3, h4⟩ := mem_position_events h
      refine ⟨h1, h2, ?_, h4⟩
      intro j hj
      have := h3 j hj
      subst this
      simp only [List.length_cons, Nat.cast_add, Nat.cast_one]
      omega
    · obtain ⟨h1, h2, h3, h4⟩ := ih _ _ h
      refine ⟨h1, h2, ?_, h4⟩
      intro j hj
      have := h3 j hj
      simp only [List.length_cons, Nat.cast_add, Nat.cast_one]
      omega

theorem walkEvents_reads :
    ∀ (ps : List Position) (i dblast : Int),
      (walkEvents i dblast ps).filterMap Event.readIndex =
        (List.range ps.length).map (fun (j : Nat) => i + (j : Int)) := by
  intro ps
  induction ps with
  | nil => intro i dblast; simp [walkEvents]
  | cons p ps ih =>
    intro i dblast
    have hp : (p.events i dblast).filterMap Event.readIndex = [i] := by
      unfold Position.events
      split <;> simp [List.filterMap_cons, Event.readIndex]
    simp only [walkEvents, List.filterMap_append, hp, ih, List.length_cons, List.range_succ_eq_map,
      List.map_cons, List.map_map]
    simp only [Nat.cast_zero, add_zero, List.singleton_append, List.cons.injEq, true_and]
    apply List.map_congr_left
    intro j _
    simp only [Function.comp_apply, Nat.cast_succ]
    omega

theorem walkEvents_commits :
    ∀ (ps : List Position) (i dblast : Int),
      ((walkEvents i dblast ps).filter Event.isCommit).length ≤ ps.length := by
  intro ps
  induction ps with
  | nil => intro i dblast; simp [walkEvents]
  | cons p ps ih =>
    intro i dblast
    have hp : ((p.events i dblast).filter Event.isCommit).length ≤ 1 := by
      unfold Position.events
      split <;> simp [List.filter_cons, Event.isCommit]
    have := ih (i + 1) (if 0 < p.length then dblast + 1 else dblast)
    simp only [walkEvents, List.filter_append, List.length_append, List.length_cons]
    omega

theorem walkEvents_ordered :
    ∀ (ps : List Position) (i dblast : Int) (last : Option Int),
      commitsFollowReads last (walkEvents i dblast ps) = true := by
  intro ps
  induction ps with
  | nil => intro i dblast last; simp [walkEvents, commitsFollowReads]
  | cons p ps ih =>
    intro i dblast last
    simp only [walkEvents, Position.events]
    split <;> simp [commitsFollowReads, ih]

theorem walkEvents_getChain (ps : List Position) (i dblast : Int) :
    (walkEvents i dblast ps).filter Event.isGetChain = [] := by
  rw [List.filter_eq_nil_iff]
  intro e he
  simp [(mem_walkEvents ps i dblast he).1]

/-- A run in whose trace `getChain` reported `N` has reached the loop. -/
theorem run_of_getChain {σ δ : Type} (K : Consts) (E : Env σ δ) (args : List CStr) (N : Int)
    (hN : Event.getChain (some N) ∈ (main K E args).trace) :
    ∃ v v1 a, parseArgs K E.posixlyCorrect args = some v ∧ selectTransport K v = some (v1, a) ∧
      ∃ (ps : List Position) (e : WalkEnd),
        main K E args =
          { outcome := e.outcome,
            out := stdoutAt E.stdoutBuffering E.stdoutBufsize e.outcome
              (walkLines 0 ps ++ e.out ps.length),
            err := usingText v1.verbose (E.getFile E.db),
            trace := setupEvents a v1.verbose N (E.getFile E.db) ++
              (walkEvents 0 0 ps ++ e.events ps.length) } ∧
        e.Fits N.toNat ps.length := by
  rcases main_cases K E args with ⟨h, _⟩ | ⟨v, v1, a, hp, hs, h | h | ⟨num, ps, e, h, hf⟩⟩
  · rw [h] at hN; simp [usage] at hN
  · rw [h] at hN; simp at hN
  · rw [h] at hN; simp at hN
  · refine ⟨v, v1, a, hp, hs, ps, e, ?_, ?_⟩
    all_goals
      have hnum : num = N := by
        rw [h] at hN
        simp only [List.mem_append] at hN
        rcases hN with hN | hN | hN
        · unfold setupEvents at hN
          split at hN <;> simp at hN <;> exact hN.symm
        · exact absurd (mem_walkEvents ps _ _ hN).1 (by simp [Event.isGetChain])
        · cases e <;> simp [WalkEnd.events] at hN
      subst hnum
    · exact h
    · exact hf

theorem setupEvents_props (a : Adapter) (verbose : Bool) (N : Int) (file : CStr) :
    (setupEvents a verbose N file).filterMap Event.readIndex = [] ∧
    (setupEvents a verbose N file).filter Event.isCommit = [] ∧
    (setupEvents a verbose N file).filter Event.isGetChain = [Event.getChain (some N)] ∧
    (∀ e ∈ setupEvents a verbose N file, e.failed = false ∧ e.position = none) ∧
    (∀ (last : Option Int) (t : List Event),
      commitsFollowReads last (setupEvents a verbose N file ++ t) = commitsFollowReads last t) ∧
    ∃ post, setupEvents a verbose N file =
      [Event.construct a true, Event.setVerbose verbose] ++ Event.getChain (some N) :: post := by
  cases verbose <;>
    simp [setupEvents, Event.readIndex, Event.isCommit, Event.isGetChain, Event.failed,
      Event.position, commitsFollowReads, List.filter_cons]

/-- A run that reached the loop and in which no operation failed. -/
theorem run_of_no_failure {σ δ : Type} (K : Consts) (E : Env σ δ) (args : List CStr) (N : Int)
    (hN : Event.getChain (some N) ∈ (main K E args).trace)
    (hok : ∀ e ∈ (main K E args).trace, e.failed = false) :
    ∃ v v1 a, parseArgs K E.posixlyCorrect args = some v ∧ selectTransport K v = some (v1, a) ∧
      ∃ (ps : List Position), ps.length = N.toNat ∧
        main K E args =
          { outcome := Outcome.exit 0,
            out := walkLines 0 ps,
            err := usingText v1.verbose (E.getFile E.db),
            trace := setupEvents a v1.verbose N (E.getFile E.db) ++ walkEvents 0 0 ps } := by
  obtain ⟨v, v1, a, hp, hs, ps, e, h, hf⟩ := run_of_getChain K E args N hN
  refine ⟨v, v1, a, hp, hs, ps, ?_⟩
  rw [h] at hok
  cases e with
  | done => exact ⟨hf, by simpa [WalkEnd.outcome, WalkEnd.out, WalkEnd.events, stdoutAt] using h⟩
  | readFailed =>
    have := hok (Event.getDeviceID ps.length none) (by simp [WalkEnd.events])
    simp [Event.failed] at this
  | commitFailed id L =>
    have := hok (Event.setDeviceIRLength ps.length L false) (by simp [WalkEnd.events])
    simp [Event.failed] at this

theorem mem_walkEvents_commit (i : Int) (L : Int) (ok : Bool) :
    ∀ (ps : List Position) (i0 dblast : Int),
      Event.setDeviceIRLength i L ok ∈ walkEvents i0 dblast ps ↔
        ∃ (j : Nat) (p : Position), ps[j]? = some p ∧ i = i0 + (j : Int) ∧ 0 < p.length ∧
          L = p.length ∧ ok = true := by
  intro ps
  induction ps with
  | nil => intro i0 dblast; simp [walkEvents]
  | cons p ps ih =>
    intro i0 dblast
    simp only [walkEvents, List.mem_append, ih]
    constructor
    · rintro (h | ⟨j, q, hq, hi, hrest⟩)
      · refine ⟨0, p, by simp, ?_⟩
        unfold Position.events at h
        split at h
        · simp at h
          obtain ⟨h1, h2, h3⟩ := h
          subst h1 h2 h3
          simp; assumption
        · simp at h
      · exact ⟨j + 1, q, by simpa using hq, by push_cast; omega, hrest⟩
    · rintro ⟨j, q, hq, hi, hpos, hL, hok⟩
      cases j with
      | zero =>
        left
        simp at hq
        subst hq hL hok
        simp at hi
        subst hi
        simp [Position.events, hpos]
      | succ j =>
        right
        exact ⟨j, q, by simpa using hq, by push_cast at hi; omega, hpos, hL, hok⟩

/-- C1: in a run in which `getChain` reported the chain length `N` and no
chain-walk operation failed, the `getDeviceID` calls are exactly those for
the positions `0, 1, ..., N-1` in this order, there are at most `N`
`setDeviceIRLength` calls, each of them is for the position read last (so
it comes after the read of its position and before the next read), and
`getChain` is called exactly once, before every other call on the chain
walker. -/
theorem C1_walk_order {σ δ : Type} (K : Consts) (E : Env σ δ) (args : List CStr) (N : Int)
    (hN : Event.getChain (some N) ∈ (main K E args).trace)
    (hok : ∀ e ∈ (main K E args).trace, e.failed = false) :
    (main K E args).trace.filterMap Event.readIndex =
        (List.range N.toNat).map (fun (j : Nat) => (j : Int)) ∧
      ((main K E args).trace.filter Event.isCommit).length ≤ N.toNat ∧
      commitsFollowReads none (main K E args).trace = true ∧
      (main K E args).trace.filter Event.isGetChain = [Event.getChain (some N)] ∧
      ∃ pre post, (main K E args).trace = pre ++ Event.getChain (some N) :: post ∧
        ∀ e ∈ pre, e.isJtag = false := by
  obtain ⟨v, v1, a, -, -, ps, hlen, h⟩ := run_of_no_failure K E args N hN hok
  obtain ⟨s1, s2, s3, -, s5, post, s6⟩ :=
    setupEvents_props a v1.verbose N (E.getFile E.db)
  rw [h]
  refine ⟨?_, ?_, ?_, ?_, ?_⟩
  · simp [List.filterMap_append, s1, walkEvents_reads, hlen]
  · simp only [List.filter_append, s2, List.nil_append]
    exact hlen ▸ walkEvents_commits ps 0 0
  · simp only [s5, walkEvents_ordered]
  · simp only [List.filter_append, s3, walkEvents_getChain, List.append_nil]
  · refine ⟨[Event.construct a true, Event.setVerbose v1.verbose], post ++ walkEvents 0 0 ps, ?_, ?_⟩
    · simp only [s6, List.append_assoc, List.cons_append]
    · intro e he
      simp only [List.mem_cons, List.mem_singleton, List.not_mem_nil, or_false] at he
      rcases he with he | he <;> subst he <;> rfl

/-- C1, witness: the sample chain of three devices, walked without failure. -/
theorem C1_walk_order_witness :
    (Event.getChain (some 3) ∈
        (main sampleConsts
          (sampleEnv true [0x149511C3, 0, 0x149511C3] (fun _ => false) (fun _ => false)) []).trace ∧
      ∀ e ∈ (main sampleConsts
          (sampleEnv true [0x149511C3, 0, 0x149511C3] (fun _ => false) (fun _ => false)) []).trace,
        e.failed = false) ∧
    (main sampleConsts
        (sampleEnv true [0x149511C3, 0, 0x149511C3] (fun _ => false) (fun _ => false))
        []).trace.filterMap Event.readIndex = [0, 1, 2] :=
  ⟨⟨by decide, by decide⟩,
    (C1_walk_order sampleConsts
      (sampleEnv true [0x149511C3, 0, 0x149511C3] (fun _ => false) (fun _ => false)) [] 3
      (by decide) (by decide)).1⟩

/-- C2: in a run in which `getChain` reported `N` and no chain-walk
operation failed, the run returns status 0 and the calls after the setup
are those of `N` completed iterations, one for each position in order; the
iteration for position `i` reads the code, asks the database for it, and
calls `setDeviceIRLength(i, L)` exactly when the length `L` that
`loadDevice` returned is positive, with that very length; when the length
is not positive the iteration makes no commit and the walk goes on. -/
theorem C2_commit_iff_resolved {σ δ : Type} (K : Consts) (E : Env σ δ) (args : List CStr)
    (N : Int)
    (hN : Event.getChain (some N) ∈ (main K E args).trace)
    (hok : ∀ e ∈ (main K E args).trace, e.failed = false) :
    (main K E args).outcome = Outcome.exit 0 ∧
      ∃ (a : Adapter) (verbose : Bool) (file : CStr) (ps : List Position),
        ps.length = N.toNat ∧
        (main K E args).trace = setupEvents a verbose N file ++ walkEvents 0 0 ps ∧
        ∀ (i L : Int) (ok : Bool),
          Event.setDeviceIRLength i L ok ∈ (main K E args).trace ↔
            ∃ (j : Nat) (p : Position), ps[j]? = some p ∧ i = (j : Int) ∧ 0 < p.length ∧
              L = p.length ∧ ok = true := by
  obtain ⟨v, v1, a, -, -, ps, hlen, h⟩ := run_of_no_failure K E args N hN hok
  rw [h]
  refine ⟨rfl, a, v1.verbose, E.getFile E.db, ps, hlen, rfl, ?_⟩
  intro i L ok
  have hs : Event.setDeviceIRLength i L ok ∉ setupEvents a v1.verbose N (E.getFile E.db) := by
    intro hmem
    have := ((setupEvents_props a v1.verbose N (E.getFile E.db)).2.2.2.1 _ hmem).2
    simp [Event.position] at this
  simp only [List.mem_append, hs, false_or, mem_walkEvents_commit, zero_add]

/-- C2, witness: the sample chain, whose middle device the database does
not know, is walked to the end and the run returns 0. -/
theorem C2_commit_iff_resolved_witness :
    (Event.getChain (some 3) ∈
        (main sampleConsts
          (sampleEnv true [0x149511C3, 0, 0x149511C3] (fun _ => false) (fun _ => false)) []).trace ∧
      ∀ e ∈ (main sampleConsts
          (sampleEnv true [0x149511C3, 0, 0x149511C3] (fun _ => false) (fun _ => false)) []).trace,
        e.failed = false) ∧
    (main sampleConsts
        (sampleEnv true [0x149511C3, 0, 0x149511C3] (fun _ => false) (fun _ => false))
        []).outcome = Outcome.exit 0 :=
  ⟨⟨by decide, by decide⟩,
    (C2_commit_iff_resolved sampleConsts
      (sampleEnv true [0x149511C3, 0, 0x149511C3] (fun _ => false) (fun _ => false)) [] 3
      (by decide) (by decide)).1⟩

/-! ### The printed numbers -/

theorem digitsAux_eq (base : Nat) (hb : 2 ≤ base) :
    ∀ (fuel n : Nat) (acc : List Char), n < fuel →
      digitsAux base fuel n acc = digits base n ++ acc := by
  intro fuel
  induction fuel using Nat.strong_induction_on with
  | _ fuel ih =>
    intro n acc hn
    cases fuel with
    | zero => omega
    | succ f =>
      by_cases hlt : n < base
      · simp [digitsAux, digits, hlt]
      · have hdiv : n / base < n := Nat.div_lt_self (by omega) (by omega)
        have h1 : digitsAux base (f + 1) n acc =
            digitsAux base f (n / base) (hexChar (n % base) :: acc) := by
          simp [digitsAux, hlt]
        have h2 : digits base n = digitsAux base n (n / base) [hexChar (n % base)] := by
          simp [digits, digitsAux, hlt]
        rw [h1, h2, ih f (by omega) (n / base) _ (by omega), ih n (by omega) (n / base) _ hdiv]
        simp

theorem digits_lt (base n : Nat) (h : n < base) : digits base n = [hexChar n] := by
  simp [digits, digitsAux, h]

theorem digits_ge (base n : Nat) (hb : 2 ≤ base) (h : base ≤ n) :
    digits base n = digits base (n / base) ++ [hexChar (n % base)] := by
  have hdiv : n / base < n := Nat.div_lt_self (by omega) (by omega)
  have h2 : digits base n = digitsAux base n (n / base) [hexChar (n % base)] := by
    simp [digits, digitsAux, Nat.not_lt.mpr h]
  rw [h2, digitsAux_eq base hb n (n / base) _ hdiv]

theorem digits_length_pos (base n : Nat) (hb : 2 ≤ base) : 1 ≤ (digits base n).length := by
  by_cases h : n < base
  · simp [digits_lt base n h]
  · rw [digits_ge base n hb (by omega)]
    simp

theorem digits_length_le (base : Nat) (hb : 2 ≤ base) :
    ∀ (k n : Nat), n < base ^ (k + 1) → (digits base n).length ≤ k + 1 := by
  intro k
  induction k with
  | zero =>
    intro n hn
    simp at hn
    simp [digits_lt base n hn]
  | succ k ih =>
    intro n hn
    by_cases h : n < base
    · simp [digits_lt base n h]
    · rw [digits_ge base n hb (by omega)]
      have : n / base < base ^ (k + 1) := by
        apply Nat.div_lt_of_lt_mul
        rw [← Nat.pow_succ']
        exact hn
      have := ih (n / base) this
      simp
      omega

theorem digitVal_hexChar : ∀ d, d < 16 → digitVal (hexChar d) = some d := by decide

theorem strtolDigits_digits (base : Nat) (hb : 2 ≤ base) (hb16 : base ≤ 16) :
    ∀ (n a : Nat) (rest : List Char),
      strtolDigits base a (digits base n ++ rest) =
        strtolDigits base (a * base ^ (digits base n).length + n) rest := by
  intro n
  induction n using Nat.strong_induction_on with
  | _ n ih =>
    intro a rest
    by_cases h : n < base
    · simp [digits_lt base n h, strtolDigits, digitVal_hexChar n (by omega), h]
    · have hdiv : n / base < n := Nat.div_lt_self (by omega) (by omega)
      have hmod : n % base < base := Nat.mod_lt _ (by omega)
      rw [digits_ge base n hb (by omega), List.append_assoc, ih (n / base) hdiv]
      simp only [List.singleton_append, strtolDigits, digitVal_hexChar (n % base) (by omega),
        hmod, if_true, List.length_append, List.length_singleton]
      congr 1
      have := Nat.div_add_mod n base
      rw [pow_succ]
      nlinarith [Nat.div_add_mod n base]

theorem strtolDigits_zeros (base : Nat) (hb : 2 ≤ base) (s : List Char) :
    ∀ k, strtolDigits base 0 (List.replicate k '0' ++ s) = strtolDigits base 0 s := by
  intro k
  induction k with
  | zero => simp
  | succ k ih =>
    have h0 : digitVal '0' = some 0 := by decide
    simp [List.replicate_succ, strtolDigits, h0, ih, show 0 < base by omega]

/-- What `%04x` prints reads back as the argument taken as `unsigned int`. -/
theorem fmt04x_value (x : Int) : strtolDigits 16 0 (fmt04x x) = (x % 2 ^ 32).toNat := by
  unfold fmt04x padLeft
  rw [strtolDigits_zeros 16 (by omega)]
  have := strtolDigits_digits 16 (by omega) (by omega) (x % 2 ^ 32).toNat 0 []
  simpa [strtolDigits] using this

/-- With `%04x` at least 4 digits are printed, and exactly 4 for a value of 16 bits. -/
theorem fmt04x_length (x : Int) :
    4 ≤ (fmt04x x).length ∧ (0 ≤ x → x < 2 ^ 16 → (fmt04x x).length = 4) := by
  constructor
  · simp [fmt04x, padLeft]
    omega
  · intro h0 h1
    have hx : (x % 2 ^ 32).toNat < 16 ^ (3 + 1) := by
      have : x % 2 ^ 32 = x := Int.emod_eq_of_lt h0 (by omega)
      rw [this]
      omega
    have := digits_length_le 16 (by omega) 3 _ hx
    simp only [fmt04x, padLeft, List.length_append, List.length_replicate]
    omega

theorem mem_digits (base : Nat) (hb : 2 ≤ base) (c : Char) :
    ∀ n, c ∈ digits base n → ∃ d, d < base ∧ c = hexChar d := by
  intro n
  induction n using Nat.strong_induction_on with
  | _ n ih =>
    intro hc
    by_cases h : n < base
    · rw [digits_lt base n h] at hc
      exact ⟨n, h, by simpa using hc⟩
    · rw [digits_ge base n hb (by omega)] at hc
      simp only [List.mem_append, List.mem_singleton] at hc
      rcases hc with hc | hc
      · exact ih (n / base) (Nat.div_lt_self (by omega) (by omega)) hc
      · exact ⟨n % base, Nat.mod_lt _ (by omega), hc⟩

theorem hexChar_ne_newline : ∀ d, d < 16 → hexChar d ≠ '\n' := by decide

theorem newline_not_mem_digits (base : Nat) (hb : 2 ≤ base) (hb16 : base ≤ 16) (n : Nat) :
    '\n' ∉ digits base n := by
  intro h
  obtain ⟨d, hd, hc⟩ := mem_digits base hb '\n' n h
  exact hexChar_ne_newline d (by omega) hc.symm

/-- The beginning of a line, printed before the commit, holds no newline. -/
theorem newline_not_mem_locText (i : Int) (id : Nat) : '\n' ∉ locText i id := by
  have h10 := newline_not_mem_digits 10 (by omega) (by omega)
  have h16 := newline_not_mem_digits 16 (by omega) (by omega)
  have hj : '\n' ∉ "JTAG loc.: ".toList := by decide
  have hc : '\n' ∉ "\tIDCODE: 0x".toList := by decide
  have ht : '\n' ∉ "\t".toList := by decide
  have hd : '\n' ∉ fmtD i := by
    unfold fmtD
    split
    · intro h
      rcases List.mem_cons.mp h with h | h
      · exact absurd h (by decide)
      · exact h10 _ h
    · exact h10 _
  have hx : '\n' ∉ fmt08lx id := by
    unfold fmt08lx padLeft
    intro h
    rcases List.mem_append.mp h with h | h
    · exact absurd (List.eq_of_mem_replicate h) (by decide)
    · exact h16 _ h
  unfold locText
  intro h
  simp only [List.mem_append] at h
  rcases h with (((h | h) | h) | h) | h
  · exact hj h
  · exact hd h
  · exact hc h
  · exact hx h
  · exact ht h

/-- Every line of a completed iteration holds the index and the code of its
position and ends with a newline. -/
theorem Position.line_shape (p : Position) (i : Int) :
    ∃ rest, p.line i =
      "JTAG loc.: ".toList ++ fmtD i ++ "\tIDCODE: 0x".toList ++ fmt08lx p.id ++ "\t".toList ++
        rest ++ ['\n'] := by
  unfold Position.line
  split
  · exact ⟨"Desc: ".toList ++ fmt15s p.desc ++ "\tIR length: ".toList ++ fmtD p.length,
      by simp [locText, descText]⟩
  · exact ⟨"not found in \x27".toList ++ p.file ++ "\x27.".toList,
      by simp [locText, notFoundText]⟩

/-! ### The stream of standard output -/

theorem stdioWritten_unbuffered (size : Nat) :
    ∀ t : List Char, stdioWritten Buffering.unbuffered size [] t = t := by
  intro t
  induction t with
  | nil => rfl
  | cons c cs ih => simp [stdioWritten, ih]

/-- A line-buffered stream has written everything up to a newline. -/
theorem stdioWritten_line_newline (size : Nat) (rest : List Char) :
    ∀ (t buf : List Char),
      stdioWritten Buffering.line size buf (t ++ '\n' :: rest) =
        buf ++ t ++ '\n' :: stdioWritten Buffering.line size [] rest := by
  intro t
  induction t with
  | nil => intro buf; simp [stdioWritten]
  | cons c cs ih =>
    intro buf
    by_cases hc : c = '\n'
    · subst hc
      simp [stdioWritten, ih]
    · by_cases hb : buf.length < size
      · simp [stdioWritten, hc, hb, ih]
      · simp [stdioWritten, hc, hb, ih]

/-- A line-buffered stream has written the complete lines. -/
theorem stdioWritten_line_lines (size : Nat) (rest : List Char) :
    ∀ (ps : List Position) (i : Int),
      stdioWritten Buffering.line size [] (walkLines i ps ++ rest) =
        walkLines i ps ++ stdioWritten Buffering.line size [] rest := by
  intro ps
  induction ps with
  | nil => intro i; simp [walkLines]
  | cons p ps ih =>
    intro i
    obtain ⟨r, hr⟩ := Position.line_shape p i
    have := stdioWritten_line_newline size (walkLines (i + 1) ps ++ rest)
      ("JTAG loc.: ".toList ++ fmtD i ++ "\tIDCODE: 0x".toList ++ fmt08lx p.id ++ "\t".toList ++ r)
      []
    simp only [walkLines, hr, List.append_assoc, List.singleton_append, List.nil_append,
      List.cons_append] at this ⊢
    rw [this, ih]

/-- Text without a newline that fits the buffer of a line-buffered stream
stays in the buffer. -/
theorem stdioWritten_line_fit (size : Nat) :
    ∀ (t buf : List Char), '\n' ∉ t → buf.length + t.length ≤ size →
      stdioWritten Buffering.line size buf t = [] := by
  intro t
  induction t with
  | nil => intro buf _ _; rfl
  | cons c cs ih =>
    intro buf hn hlen
    have hc : c ≠ '\n' := fun h => hn (by simp [h])
    have hcs : '\n' ∉ cs := fun h => hn (List.mem_cons_of_mem _ h)
    simp only [List.length_cons] at hlen
    have hb : buf.length < size := by omega
    simp only [stdioWritten, hc, hb, if_true, if_false]
    exact ih (buf ++ [c]) hcs (by simp; omega)

/-- Text that fits the buffer of a fully buffered stream stays in the
buffer. -/
theorem stdioWritten_full_fit (size : Nat) :
    ∀ (t buf : List Char), buf.length + t.length ≤ size →
      stdioWritten Buffering.full size buf t = [] := by
  intro t
  induction t with
  | nil => intro buf _; rfl
  | cons c cs ih =>
    intro buf hlen
    simp only [List.length_cons] at hlen
    have hb : buf.length < size := by omega
    simp only [stdioWritten, hb, if_true]
    exact ih (buf ++ [c]) (by simp; omega)

theorem WalkEnd.newline_not_mem_out (k : Int) (e : WalkEnd) : '\n' ∉ e.out k := by
  cases e with
  | done => simp [WalkEnd.out]
  | readFailed => simp [WalkEnd.out]
  | commitFailed id L => exact newline_not_mem_locText k id

set_option maxRecDepth 8000 in
/-- C3, counterexample: on the sample chain of three devices, with standard
output a pipe, the read of position 2 fails; the two lines printed for the
positions 0 and 1 are still in the buffer of the stream when the exception
ends the program, and standard output has received nothing. -/
theorem C3_counterexample :
    Event.getDeviceID 2 none ∈
        (main sampleConsts
          (sampleEnv true [0x149511C3, 0, 0x149511C3] (fun i => i == 2) (fun _ => false))
          []).trace ∧
      (main sampleConsts
          (sampleEnv true [0x149511C3, 0, 0x149511C3] (fun i => i == 2) (fun _ => false))
          []).out = [] ∧
      ¬ ∃ ps : List Position, ps.length = 2 ∧
        (main sampleConsts
          (sampleEnv true [0x149511C3, 0, 0x149511C3] (fun i => i == 2) (fun _ => false))
          []).out = walkLines 0 ps := by
  have hout : (main sampleConsts
      (sampleEnv true [0x149511C3, 0, 0x149511C3] (fun i => i == 2) (fun _ => false))
      []).out = [] := by decide
  refine ⟨by decide, hout, ?_⟩
  rintro ⟨ps, hlen, h⟩
  rw [hout] at h
  match ps, hlen with
  | [p, q], _ => simp [walkLines, Position.line, locText] at h

/-- C3, as amended: when a chain-walk operation issued for position `k`
fails (the read `getDeviceID(k)` or the commit `setDeviceIRLength(k, _)`),
then `k` lies in `[0, N)` for the chain length `N` that `getChain`
reported, the calls of the run are the setup, the completed iterations for
the `k` positions before `k` and the unfinished iteration for `k`, and the
program has handed to the standard-output stream exactly the lines of
these `k` positions, each with its index and code and a closing newline,
followed, when it is the commit that failed, by the beginning of the line
for `k`, which holds no newline. The exception is not caught: the run does
not end with status 0 and the stream is not flushed, so that standard
output has received what the stream had written by then: exactly the `k`
lines when it is line buffered (a terminal) and the beginning of line `k`
fits the buffer, all of the text when it is unbuffered, and nothing when
it is fully buffered and the text fits the buffer (a pipe or a file). No
operation is issued for a position greater than `k`. -/
theorem C3_failure_at_k {σ δ : Type} (K : Consts) (E : Env σ δ) (args : List CStr) (k : Int)
    (hfail : Event.getDeviceID k none ∈ (main K E args).trace ∨
      ∃ L, Event.setDeviceIRLength k L false ∈ (main K E args).trace) :
    (∃ (N : Int) (a : Adapter) (verbose : Bool) (file : CStr) (ps : List Position)
        (e : WalkEnd),
        (0 ≤ k ∧ k < N) ∧ (ps.length : Int) = k ∧ e ≠ WalkEnd.done ∧
        (main K E args).trace =
          setupEvents a verbose N file ++ (walkEvents 0 0 ps ++ e.events k) ∧
        (main K E args).out =
          stdioWritten E.stdoutBuffering E.stdoutBufsize [] (walkLines 0 ps ++ e.out k) ∧
        (E.stdoutBuffering = Buffering.line → (e.out k).length ≤ E.stdoutBufsize →
          (main K E args).out = walkLines 0 ps) ∧
        (E.stdoutBuffering = Buffering.unbuffered →
          (main K E args).out = walkLines 0 ps ++ e.out k) ∧
        (E.stdoutBuffering = Buffering.full →
          (walkLines 0 ps ++ e.out k).length ≤ E.stdoutBufsize →
          (main K E args).out = []) ∧
        '\n' ∉ e.out k) ∧
      (∀ (p : Position) (i : Int), ∃ rest, p.line i =
        "JTAG loc.: ".toList ++ fmtD i ++ "\tIDCODE: 0x".toList ++ fmt08lx p.id ++
          "\t".toList ++ rest ++ ['\n']) ∧
      (∀ ev ∈ (main K E args).trace, ∀ j, ev.position = some j → j ≤ k) ∧
      (main K E args).outcome = Outcome.terminate ∧
      (main K E args).outcome ≠ Outcome.exit 0 := by
  rcases main_cases K E args with ⟨h, _⟩ | ⟨v, v1, a, hp, hs, h | h | ⟨num, ps, e, h, hf⟩⟩
  · rw [h] at hfail; simp [usage] at hfail
  · rw [h] at hfail; simp at hfail
  · rw [h] at hfail; simp at hfail
  · have hsetup := (setupEvents_props a v1.verbose num (E.getFile E.db)).2.2.2.1
    have hnotsetup : ∀ ev : Event, ev.failed = true →
        ev ∉ setupEvents a v1.verbose num (E.getFile E.db) := by
      intro ev hev hmem
      have := (hsetup ev hmem).1
      simp [hev] at this
    have hnotwalk : ∀ ev : Event, ev.failed = true → ev ∉ walkEvents 0 0 ps := by
      intro ev hev hmem
      have := (mem_walkEvents ps 0 0 hmem).2.1
      simp [hev] at this
    have hk : (ps.length : Int) = k ∧ e ≠ WalkEnd.done := by
      rw [h] at hfail
      simp only [List.mem_append] at hfail
      rcases hfail with (hm | hm | hm) | ⟨L, hm | hm | hm⟩
      · exact absurd hm (hnotsetup _ rfl)
      · exact absurd hm (hnotwalk _ rfl)
      · cases e <;> simp [WalkEnd.events] at hm
        exact ⟨hm.symm, by simp⟩
      · exact absurd hm (hnotsetup _ rfl)
      · exact absurd hm (hnotwalk _ rfl)
      · cases e <;> simp [WalkEnd.events] at hm
        exact ⟨hm.1.symm, by simp⟩
    obtain ⟨hlen, hne⟩ := hk
    have hlt : ps.length < num.toNat := by
      cases e with
      | done => exact absurd rfl hne
      | readFailed => exact hf
      | commitFailed id L => exact hf.1
    have hterm : e.outcome = Outcome.terminate := by
      cases e with
      | done => exact absurd rfl hne
      | readFailed => rfl
      | commitFailed id L => rfl
    have hout : (main K E args).out =
        stdioWritten E.stdoutBuffering E.stdoutBufsize [] (walkLines 0 ps ++ e.out k) := by
      rw [h]
      simp only [hterm, stdoutAt, hlen]
    have hnl : '\n' ∉ e.out k := WalkEnd.newline_not_mem_out k e
    refine ⟨⟨num, a, v1.verbose, E.getFile E.db, ps, e, ⟨by omega, by omega⟩, hlen, hne, ?_, hout,
      ?_, ?_, ?_, hnl⟩, Position.line_shape, ?_, ?_, ?_⟩
    · rw [h, hlen]
    · intro hmode hfit
      rw [hout, hmode, stdioWritten_line_lines, stdioWritten_line_fit _ _ _ hnl (by simpa using hfit)]
      simp
    · intro hmode
      rw [hout, hmode, stdioWritten_unbuffered]
    · intro hmode hfit
      rw [hout, hmode, stdioWritten_full_fit _ _ _ (by simpa using hfit)]
    · intro ev hev j hj
      rw [h] at hev
      simp only [List.mem_append] at hev
      rcases hev with hev | hev | hev
      · have := (hsetup ev hev).2
        simp [this] at hj
      · have := ((mem_walkEvents ps 0 0 hev).2.2.1 j hj).2
        omega
      · cases e <;> simp [WalkEnd.events] at hev
        · subst hev
          simp [Event.position] at hj
          omega
        · rcases hev with hev | hev | hev <;> subst hev <;> simp [Event.position] at hj <;> omega
    · rw [h]
      exact hterm
    · rw [h, hterm]
      simp

set_option maxRecDepth 8000 in
/-- C3, witness: on the sample chain, with standard output a terminal, the
commit for position 2 fails; standard output has received the two lines of
the positions 0 and 1 and not the beginning of the third. -/
theorem C3_failure_at_k_witness :
    (Event.getDeviceID 2 none ∈
          (main sampleConsts
            { sampleEnv true [0x149511C3, 0, 0x149511C3] (fun _ => false) (fun i => i == 2) with
              stdoutBuffering := Buffering.line } []).trace ∨
        ∃ L, Event.setDeviceIRLength 2 L false ∈
          (main sampleConsts
            { sampleEnv true [0x149511C3, 0, 0x149511C3] (fun _ => false) (fun i => i == 2) with
              stdoutBuffering := Buffering.line } []).trace) ∧
      (main sampleConsts
          { sampleEnv true [0x149511C3, 0, 0x149511C3] (fun _ => false) (fun i => i == 2) with
            stdoutBuffering := Buffering.line } []).outcome = Outcome.terminate ∧
      (main sampleConsts
          { sampleEnv true [0x149511C3, 0, 0x149511C3] (fun _ => false) (fun i => i == 2) with
            stdoutBuffering := Buffering.line } []).out =
        ("JTAG loc.: 0\tIDCODE: 0x149511c3\tDesc:    EXAMPLE-FPGA\tIR length: 6\n" ++
          "JTAG loc.: 1\tIDCODE: 0x00000000\tnot found in \x27devlist.txt\x27.\n").toList :=
  ⟨Or.inr ⟨6, by decide⟩,
    (C3_failure_at_k sampleConsts
      { sampleEnv true [0x149511C3, 0, 0x149511C3] (fun _ => false) (fun i => i == 2) with
        stdoutBuffering := Buffering.line } [] 2
      (Or.inr ⟨6, by decide⟩)).2.2.2.1,
    by decide⟩

/-- A constructor call in the trace is the one `selectTransport` chose for
the parsed options; when it failed the run has the shape of the `catch`
branch. -/
theorem run_of_construct {σ δ : Type} (K : Consts) (E : Env σ δ) (args : List CStr)
    (a : Adapter) (ok : Bool) (h : Event.construct a ok ∈ (main K E args).trace) :
    ∃ v v1, parseArgs K E.posixlyCorrect args = some v ∧ selectTransport K v = some (v1, a) ∧
      (ok = false →
        main K E args =
          { outcome := Outcome.exit 1, out := [],
            err := if v1.cable ≠ "pp".toList then accessText v1.vendor v1.product else [],
            trace := [Event.construct a false] }) := by
  rcases main_cases K E args with ⟨hu, _⟩ | ⟨v, v1, a1, hp, hs, hm | hm | ⟨num, ps, e, hm, hf⟩⟩
  · rw [hu] at h; simp [usage] at h
  · rw [hm] at h
    simp at h
    obtain ⟨h1, h2⟩ := h
    subst h1 h2
    exact ⟨v, v1, hp, hs, fun _ => hm⟩
  · rw [hm] at h
    simp at h
    obtain ⟨h1, h2⟩ := h
    subst h1 h2
    exact ⟨v, v1, hp, hs, fun hc => by cases hc⟩
  · rw [hm] at h
    simp only [List.mem_append] at h
    rcases h with h | h | h
    · unfold setupEvents at h
      have h12 : a = a1 ∧ ok = true := by
        split at h <;> simp at h <;> exact h
      obtain ⟨h1, h2⟩ := h12
      subst h1 h2
      exact ⟨v, v1, hp, hs, fun hc => by cases hc⟩
    · exact absurd rfl ((mem_walkEvents ps 0 0 h).2.2.2 a ok)
    · cases e <;> simp [WalkEnd.events] at h

/-- C4, counterexample: with `-c fx2 -P 5` the command line supplies the
pair (0, 5), which is not "both unset", yet the constructor does not
receive (0, 5): the vendor is replaced by the default. With `-c ftdi` both
are unset and the constructor does not receive the pair 0x0403:0x0610 that
the usage text documents: it receives (0, 0). -/
theorem C4_counterexample :
    ((parseArgs sampleConsts false ["-c".toList, "fx2".toList, "-P".toList, "5".toList]).map
        (fun v => (v.vendor, v.product)) = some (0, 5) ∧
      ¬ ∀ a ok, Event.construct a ok ∈
          (main sampleConsts (sampleEnv true [] (fun _ => false) (fun _ => false))
            ["-c".toList, "fx2".toList, "-P".toList, "5".toList]).trace →
          a.ids = some (0, 5)) ∧
    ((parseArgs sampleConsts false ["-c".toList, "ftdi".toList]).map
        (fun v => (v.vendor, v.product)) = some (0, 0) ∧
      ¬ ∀ a ok, Event.construct a ok ∈
          (main sampleConsts (sampleEnv true [] (fun _ => false) (fun _ => false))
            ["-c".toList, "ftdi".toList]).trace →
          a.ids = some (0x0403, 0x0610)) := by
  refine ⟨⟨by decide, fun h => ?_⟩, ⟨by decide, fun h => ?_⟩⟩
  · exact absurd (h (Adapter.IOFX2 0xfffe 5 none none) true (by decide)) (by decide)
  · exact absurd (h (Adapter.IOFtdi 0 0 none none 0) true (by decide)) (by decide)

/-- C4, as amended: the constructor call of a run is chosen by the cable
string `v.cable` that the options leave. For `fx2` and `xpc` the vendor
handed over is the default of the kind when the parsed vendor is zero and
the parsed vendor otherwise, and independently so for the product; for
`ftdi` a parsed vendor or product that is not zero is handed over
unchanged; `pp` receives the device path and no vendor or product. For
every kind a parsed value that is not zero is never replaced. -/
theorem C4_defaults_per_field {σ δ : Type} (K : Consts) (E : Env σ δ) (args : List CStr)
    (a : Adapter) (ok : Bool) (h : Event.construct a ok ∈ (main K E args).trace) :
    ∃ v, parseArgs K E.posixlyCorrect args = some v ∧
      ((v.cable = "pp".toList ∧ a = Adapter.IOParport v.dev) ∨
        (v.cable = "ftdi".toList ∧ ∃ V P, a = Adapter.IOFtdi V P v.desc v.serial v.subtype ∧
          (v.vendor ≠ 0 → V = v.vendor) ∧ (v.product ≠ 0 → P = v.product)) ∨
        (v.cable = "fx2".toList ∧
          a = Adapter.IOFX2 (if v.vendor = 0 then K.USRP_VENDOR else v.vendor)
            (if v.product = 0 then K.USRP_DEVICE else v.product) v.desc v.serial) ∨
        (v.cable = "xpc".toList ∧
          a = Adapter.IOXPC (if v.vendor = 0 then K.XPC_VENDOR else v.vendor)
            (if v.product = 0 then K.XPC_DEVICE else v.product) v.desc v.serial v.subtype)) ∧
      ∀ V P, a.ids = some (V, P) →
        (v.vendor ≠ 0 → V = v.vendor) ∧ (v.product ≠ 0 → P = v.product) := by
  obtain ⟨v, v1, hp, hs, -⟩ := run_of_construct K E args a ok h
  refine ⟨v, hp, ?_⟩
  unfold selectTransport at hs
  by_cases h1 : v.cable = "pp".toList
  · rw [if_pos h1] at hs
    cases hs
    exact ⟨Or.inl ⟨h1, rfl⟩, by simp [Adapter.ids]⟩
  · rw [if_neg h1] at hs
    by_cases h2 : v.cable = "ftdi".toList
    · rw [if_pos h2] at hs
      cases hs
      refine ⟨Or.inr (Or.inl ⟨h2, v.vendor, v.product, rfl, fun _ => rfl, fun _ => rfl⟩), ?_⟩
      intro V P hVP
      simp only [Adapter.ids, Option.some.injEq, Prod.mk.injEq] at hVP
      exact ⟨fun _ => hVP.1.symm, fun _ => hVP.2.symm⟩
    · rw [if_neg h2] at hs
      by_cases h3 : v.cable = "fx2".toList
      · rw [if_pos h3] at hs
        simp only [Option.some.injEq, Prod.mk.injEq] at hs
        obtain ⟨-, ha⟩ := hs
        subst ha
        by_cases hv : v.vendor = 0 <;> by_cases hq : v.product = 0 <;>
          simp [hv, hq, h3, Adapter.ids]
      · rw [if_neg h3] at hs
        by_cases h4 : v.cable = "xpc".toList
        · rw [if_pos h4] at hs
          simp only [Option.some.injEq, Prod.mk.injEq] at hs
          obtain ⟨-, ha⟩ := hs
          subst ha
          by_cases hv : v.vendor = 0 <;> by_cases hq : v.product = 0 <;>
            simp [hv, hq, h4, Adapter.ids]
        · rw [if_neg h4] at hs
          cases hs

/-- C4, witness: `-c fx2 -P 5` hands the default vendor and the product 5
to the constructor. -/
theorem C4_defaults_per_field_witness :
    Event.construct (Adapter.IOFX2 0xfffe 5 none none) true ∈
        (main sampleConsts (sampleEnv true [] (fun _ => false) (fun _ => false))
          ["-c".toList, "fx2".toList, "-P".toList, "5".toList]).trace ∧
      ∃ v, parseArgs sampleConsts false ["-c".toList, "fx2".toList, "-P".toList, "5".toList] =
          some v ∧
        ∀ V P, (Adapter.IOFX2 0xfffe 5 none none).ids = some (V, P) →
          (v.vendor ≠ 0 → V = v.vendor) ∧ (v.product ≠ 0 → P = v.product) :=
  ⟨by decide,
    (C4_defaults_per_field sampleConsts (sampleEnv true [] (fun _ => false) (fun _ => false))
      ["-c".toList, "fx2".toList, "-P".toList, "5".toList]
      (Adapter.IOFX2 0xfffe 5 none none) true (by decide)).imp
      (fun _ hv => ⟨hv.1, hv.2.2⟩)⟩

/-! ### The error paths -/

/-- The text that the `catch` branch prints is made of the identifiers that
the constructor received. -/
theorem selectTransport_err (K : Consts) (v v1 : Vars) (a : Adapter)
    (hs : selectTransport K v = some (v1, a)) :
    (if v1.cable ≠ "pp".toList then accessText v1.vendor v1.product else []) =
      match a.ids with
      | some (V, P) => accessText V P
      | none => [] := by
  unfold selectTransport at hs
  by_cases h1 : v.cable = "pp".toList
  · rw [if_pos h1] at hs
    cases hs
    simp [h1, Adapter.ids]
  · rw [if_neg h1] at hs
    have h1c : ¬ v.cable = ['p', 'p'] := h1
    by_cases h2 : v.cable = "ftdi".toList
    · rw [if_pos h2] at hs
      cases hs
      simp [h1c, Adapter.ids]
    · rw [if_neg h2] at hs
      by_cases h3 : v.cable = "fx2".toList
      · rw [if_pos h3] at hs
        simp only [Option.some.injEq, Prod.mk.injEq] at hs
        obtain ⟨hv, ha⟩ := hs
        subst hv ha
        by_cases hv : v.vendor = 0 <;> by_cases hq : v.product = 0 <;>
          simp [hv, hq, h1c, Adapter.ids]
      · rw [if_neg h3] at hs
        by_cases h4 : v.cable = "xpc".toList
        · rw [if_pos h4] at hs
          simp only [Option.some.injEq, Prod.mk.injEq] at hs
          obtain ⟨hv, ha⟩ := hs
          subst hv ha
          by_cases hv : v.vendor = 0 <;> by_cases hq : v.product = 0 <;>
            simp [hv, hq, h1c, Adapter.ids]
        · rw [if_neg h4] at hs
          cases hs

/-- Options that do not parse end the run in `usage()`. -/
theorem main_usage_of_parse_none {σ δ : Type} (K : Consts) (E : Env σ δ) (args : List CStr)
    (h : parseArgs K E.posixlyCorrect args = none) : main K E args = usage := by
  unfold main
  rw [h]

set_option maxRecDepth 100000 in
/-- C5: with `-c ftdi -t olimex`, vendor and product unset, and a
constructor that throws, `main` returns 1 and prints no position line, but
the diagnostic names the pair 0000:0000 and not the pair 15b1:0003 that
the usage text documents for OLIMEX. -/
theorem C5_olimex_diagnostic {σ δ : Type} (K : Consts) (E : Env σ δ)
    (hopen : E.construct (Adapter.IOFtdi 0 0 none none K.FTDI_OLIMEX) = none) :
    main K E ["-c".toList, "ftdi".toList, "-t".toList, "olimex".toList] =
        { outcome := Outcome.exit 1, out := [],
          err := "Could not access USB device 0000:0000.\n".toList,
          trace := [Event.construct (Adapter.IOFtdi 0 0 none none K.FTDI_OLIMEX) false] } ∧
      "OLIMEX\t\t(0x15b1:0x0003".toList <:+: usageText := by
  refine ⟨?_, by decide⟩
  have hp : parseArgs K E.posixlyCorrect
      ["-c".toList, "ftdi".toList, "-t".toList, "olimex".toList] =
      some { Vars.init K with cable := "ftdi".toList, subtype := K.FTDI_OLIMEX } := rfl
  have hs : selectTransport K { Vars.init K with cable := "ftdi".toList, subtype := K.FTDI_OLIMEX } =
      some ({ Vars.init K with cable := "ftdi".toList, subtype := K.FTDI_OLIMEX },
        Adapter.IOFtdi 0 0 none none K.FTDI_OLIMEX) := rfl
  unfold main
  rw [hp]
  dsimp only
  rw [hs]
  dsimp only
  rw [hopen]
  rfl

/-- C5, witness: the sample environment whose adapter does not open. -/
theorem C5_olimex_diagnostic_witness :
    (sampleEnv false [] (fun _ => false) (fun _ => false)).construct
        (Adapter.IOFtdi 0 0 none none sampleConsts.FTDI_OLIMEX) = none ∧
      main sampleConsts (sampleEnv false [] (fun _ => false) (fun _ => false))
          ["-c".toList, "ftdi".toList, "-t".toList, "olimex".toList] =
        { outcome := Outcome.exit 1, out := [],
          err := "Could not access USB device 0000:0000.\n".toList,
          trace := [Event.construct
            (Adapter.IOFtdi 0 0 none none sampleConsts.FTDI_OLIMEX) false] } :=
  ⟨rfl, (C5_olimex_diagnostic sampleConsts
    (sampleEnv false [] (fun _ => false) (fun _ => false)) rfl).1⟩

set_option maxRecDepth 8000 in
/-- C6, counterexample: with `-c ftdi -V 0x12345` and a constructor that
throws, the diagnostic names the vendor as `12345`, which has five digits,
not four. -/
theorem C6_counterexample :
    (main sampleConsts (sampleEnv false [] (fun _ => false) (fun _ => false))
        ["-c".toList, "ftdi".toList, "-V".toList, "0x12345".toList]).err =
      "Could not access USB device 12345:0000.\n".toList ∧
    (main sampleConsts (sampleEnv false [] (fun _ => false) (fun _ => false))
        ["-c".toList, "ftdi".toList, "-V".toList, "0x12345".toList]).trace =
      [Event.construct (Adapter.IOFtdi 0x12345 0 none none 0) false] ∧
    fmt04x 0x12345 = "12345".toList ∧ (fmt04x 0x12345).length ≠ 4 :=
  ⟨by decide, by decide, by decide, by decide⟩

/-- C6, as amended: when the constructor of the adapter throws, `main`
returns 1, prints nothing to standard output and makes no further call (no
`getChain`, `getDeviceID`, `setDeviceIRLength`); for `ftdi`, `fx2` and
`xpc` the diagnostic is the line `Could not access USB device V:P.` with
the vendor and product that the failing constructor received, each printed
in hexadecimal with at least 4 digits (exactly 4 for a value from 0 to
0xffff) that read back as the value, and for `pp` no diagnostic names a
vendor or product. -/
theorem C6_access_failure {σ δ : Type} (K : Consts) (E : Env σ δ) (args : List CStr)
    (a : Adapter) (h : Event.construct a false ∈ (main K E args).trace) :
    (main K E args).outcome = Outcome.exit 1 ∧
      (main K E args).out = [] ∧
      (main K E args).trace = [Event.construct a false] ∧
      (main K E args).err =
        (match a.ids with
          | some (V, P) =>
            "Could not access USB device ".toList ++ fmt04x V ++ ":".toList ++ fmt04x P ++
              ".\n".toList
          | none => []) ∧
      ∀ x : Int, 4 ≤ (fmt04x x).length ∧ (0 ≤ x → x < 2 ^ 16 → (fmt04x x).length = 4) ∧
        strtolDigits 16 0 (fmt04x x) = (x % 2 ^ 32).toNat := by
  obtain ⟨v, v1, -, hs, hm⟩ := run_of_construct K E args a false h
  rw [hm rfl]
  refine ⟨rfl, rfl, rfl, ?_, fun x => ⟨(fmt04x_length x).1, (fmt04x_length x).2, fmt04x_value x⟩⟩
  exact selectTransport_err K v v1 a hs

/-- C6, witness: `-c xpc` on an adapter that does not open names the
default pair of the kind, which the constructor received. -/
theorem C6_access_failure_witness :
    Event.construct (Adapter.IOXPC 0x03fd 0x0008 none none 0) false ∈
        (main sampleConsts (sampleEnv false [] (fun _ => false) (fun _ => false))
          ["-c".toList, "xpc".toList]).trace ∧
      (main sampleConsts (sampleEnv false [] (fun _ => false) (fun _ => false))
          ["-c".toList, "xpc".toList]).outcome = Outcome.exit 1 :=
  ⟨by decide,
    (C6_access_failure sampleConsts (sampleEnv false [] (fun _ => false) (fun _ => false))
      ["-c".toList, "xpc".toList] (Adapter.IOXPC 0x03fd 0x0008 none none 0) (by decide)).1⟩

/-- C7: when the cable string that the options leave is none of `pp`,
`ftdi`, `fx2`, `xpc` (or the options do not parse at all), the run ends in
`usage()` with status 255, which is neither 1 nor 0, having called no
constructor and no operation of the chain walk and printed nothing to
standard output. -/
theorem C7_unknown_cable {σ δ : Type} (K : Consts) (E : Env σ δ) (args : List CStr)
    (hc : ∀ v, parseArgs K E.posixlyCorrect args = some v →
      v.cable ∉ ["pp".toList, "ftdi".toList, "fx2".toList, "xpc".toList]) :
    main K E args = usage ∧
      (main K E args).outcome = Outcome.exit 255 ∧
      (main K E args).outcome ≠ Outcome.exit 1 ∧
      (main K E args).outcome ≠ Outcome.exit 0 ∧
      (main K E args).trace = [] ∧
      (main K E args).out = [] ∧
      (main K E args).err = usageText := by
  have hu : main K E args = usage := by
    rcases main_cases K E args with ⟨hu, _⟩ | ⟨v, v1, a, hp, hs, _⟩
    · exact hu
    · exfalso
      have hv := hc v hp
      simp only [List.mem_cons, List.mem_singleton, List.not_mem_nil, or_false, not_or] at hv
      obtain ⟨h1, h2, h3, h4⟩ := hv
      unfold selectTransport at hs
      rw [if_neg h1, if_neg h2, if_neg h3, if_neg h4] at hs
      cases hs
  rw [hu]
  exact ⟨rfl, rfl, by decide, by decide, rfl, rfl, rfl⟩

/-- C7, witness: the cable `usb9`. -/
theorem C7_unknown_cable_witness :
    (∀ v, parseArgs sampleConsts
          (sampleEnv true [] (fun _ => false) (fun _ => false)).posixlyCorrect
          ["-c".toList, "usb9".toList] = some v →
        v.cable ∉ ["pp".toList, "ftdi".toList, "fx2".toList, "xpc".toList]) ∧
      main sampleConsts (sampleEnv true [] (fun _ => false) (fun _ => false))
        ["-c".toList, "usb9".toList] = usage :=
  ⟨fun v hv => by
      have hp : parseArgs sampleConsts
          (sampleEnv true [] (fun _ => false) (fun _ => false)).posixlyCorrect
          ["-c".toList, "usb9".toList] =
          some { Vars.init sampleConsts with cable := "usb9".toList } := by decide
      rw [hp] at hv
      cases hv
      decide,
    (C7_unknown_cable sampleConsts (sampleEnv true [] (fun _ => false) (fun _ => false))
      ["-c".toList, "usb9".toList] (fun v hv => by
        have hp : parseArgs sampleConsts
            (sampleEnv true [] (fun _ => false) (fun _ => false)).posixlyCorrect
            ["-c".toList, "usb9".toList] =
            some { Vars.init sampleConsts with cable := "usb9".toList } := by decide
        rw [hp] at hv
        cases hv
        decide)).1⟩

set_option maxRecDepth 100000 in
/-- C9: the subtype token `NONE`, which the usage text documents for the
ftdi and xpc adapters, is not accepted: in either case of letters `-t NONE`
ends the run in `usage()` with status 255, whatever the adapter. -/
theorem C9_none_rejected {σ δ : Type} (K : Consts) (E : Env σ δ) :
    main K E ["-t".toList, "NONE".toList] = usage ∧
      main K E ["-c".toList, "ftdi".toList, "-t".toList, "none".toList] = usage ∧
      main K E ["-c".toList, "xpc".toList, "-t".toList, "NONE".toList] = usage ∧
      usage.outcome = Outcome.exit 255 ∧
      "[-t subtype]\n   \t\t\t(NONE\t\t(0x0403:0x0610) or".toList <:+: usageText := by
  have h1 : parseArgs K E.posixlyCorrect ["-t".toList, "NONE".toList] = none := rfl
  have h2 : parseArgs K E.posixlyCorrect
      ["-c".toList, "ftdi".toList, "-t".toList, "none".toList] = none := rfl
  have h3 : parseArgs K E.posixlyCorrect
      ["-c".toList, "xpc".toList, "-t".toList, "NONE".toList] = none := rfl
  exact ⟨main_usage_of_parse_none K E _ h1, main_usage_of_parse_none K E _ h2,
    main_usage_of_parse_none K E _ h3, rfl, by decide⟩

set_option maxRecDepth 100000 in
/-- C10: the option `-s X`, which the usage text documents for the serial
number, is not an option of the option string (which has `S:`): for every
`X` and whatever follows, the run ends in `usage()` with status 255 and no
constructor is called. -/
theorem C10_serial_option_rejected {σ δ : Type} (K : Consts) (E : Env σ δ) (X : CStr)
    (rest : List CStr) :
    main K E ("-s".toList :: X :: rest) = usage ∧ usage.outcome = Outcome.exit 255 ∧
      usage.trace = [] ∧
      "[-s serial]".toList <:+: usageText ∧ 's' ∉ optstring ∧ 'S' ∈ optstring := by
  have h1 : parseArgs K E.posixlyCorrect ("-s".toList :: X :: rest) = none := by
    have hc : getoptCluster optstring ['s'] = ([GetoptRet.flag '?'], none) := by decide
    have hne : ¬ ("-s".toList = "--".toList) := by decide
    unfold parseArgs
    have hg : (getoptReturns optstring E.posixlyCorrect none [] ("-s".toList :: X :: rest)).1 =
        GetoptRet.flag '?' ::
          (getoptReturns optstring E.posixlyCorrect none [] (X :: rest)).1 := by
      show (getoptReturns optstring E.posixlyCorrect none [] (['-', 's'] :: X :: rest)).1 = _
      rw [getoptReturns]
      simp [hc]
    rw [hg]
    simp [optionLoop, handleOption]
  exact ⟨main_usage_of_parse_none K E _ h1, rfl, rfl, by decide, by decide, by decide⟩

/-! ### The report -/

end Detectchain
